import Mathlib

/-!
Verification development for the ndmBridge repository: a Discord-to-Nostr
bridge that watches one Discord channel, converts each incoming message
into a signed Nostr kind-1 event, and forwards it to a relay over a
WebSocket connection.

The repository contains four historical variants of the same pipeline:
  * `src/main.go` (namespace `Main0` here): the earliest prototype, with a
    flat tag list, an ECDSA signer and a write-only publisher;
  * `src/unnamed/part_001` (namespace `NostrLib`): a `package nostr`
    library with mention stripping, a serializer that post-processes the
    `&` escape, a Schnorr signer, and a dial-write-read publisher;
  * `src/unnamed/part_002` (namespace `Main2`): the later `package main`,
    with nested tags, a plain serializer, a Schnorr signer and a
    write-only publisher over a shared connection;
  * `src/nostr/nostr.go` (namespace `NostrPkg`): a `package nostr` file
    whose serializer and id computation coincide with `Main2` and whose
    publisher writes one frame and reads one response on a given
    connection.

Pure helper functions (hex, UTF-8, JSON rendering, SHA-256, the BIP-340
Schnorr signer of the external btcec library) are shared at top level.
Effectful code (WebSocket dial/write/read) is embedded by passing an
explicit network environment and recording the performed actions.
-/

namespace NdmBridge

/-! ## Byte and character utilities -/

/-- Lowercase hexadecimal digit characters, as used by Go's
`encoding/hex` (`const hextable = "0123456789abcdef"`). For `n < 16` this
is the character Go emits; the `% 16` performed by callers mirrors the
fact that Go indexes the table with a 4-bit value. -/
def hexDigitChar (n : Nat) : Char :=
  if n < 10 then Char.ofNat (48 + n) else Char.ofNat (87 + n)

/-- Embedding of Go `hex.EncodeToString`: each byte becomes its high and
low nibble, rendered with lowercase digits. -/
def hexEncodeToString (bytes : List Nat) : String :=
  String.mk (bytes.flatMap (fun b => [hexDigitChar (b / 16 % 16), hexDigitChar (b % 16)]))

/-- Value of one hexadecimal digit character, accepting the same digits
as Go `encoding/hex.fromHexChar`: `0-9`, `a-f` and `A-F`. -/
def hexVal (c : Char) : Option Nat :=
  if '0' ≤ c ∧ c ≤ '9' then some (c.toNat - 48)
  else if 'a' ≤ c ∧ c ≤ 'f' then some (c.toNat - 87)
  else if 'A' ≤ c ∧ c ≤ 'F' then some (c.toNat - 55)
  else none

/-- Embedding of Go `hex.DecodeString` on the character list of the
input: decodes hex digit pairs, failing on an invalid digit or on an
odd-length input (Go's `hex.ErrLength`). -/
def hexDecodeList : List Char → Except String (List Nat)
  | [] => .ok []
  | [_] => .error "encoding/hex: odd length hex string"
  | a :: b :: rest =>
    match hexVal a, hexVal b with
    | some x, some y =>
      match hexDecodeList rest with
      | .ok t => .ok ((16 * x + y) :: t)
      | .error e => .error e
    | _, _ => .error "encoding/hex: invalid byte"

/-- Go `hex.DecodeString` on a `String`. -/
def hexDecodeString (s : String) : Except String (List Nat) :=
  hexDecodeList s.data

/-- The bytes Go `hex.DecodeString` has produced when it returns an
error together with a partial result: all complete valid digit pairs
before the first failure. `main.go` and `part_002` discard the error of
`hex.DecodeString` and keep using this partial value. -/
def hexDecodePartialL : List Char → List Nat
  | a :: b :: rest =>
    match hexVal a, hexVal b with
    | some x, some y => (16 * x + y) :: hexDecodePartialL rest
    | _, _ => []
  | _ => []

/-- Partial hex decoding of a `String` (decoded-so-far bytes). -/
def hexDecodePartial (s : String) : List Nat :=
  hexDecodePartialL s.data

/-- Standard UTF-8 encoding of one scalar value, the byte sequence Go
produces when converting a `string` to `[]byte`. -/
def utf8EncodeChar (c : Char) : List Nat :=
  let n := c.toNat
  if n < 128 then [n]
  else if n < 2048 then [192 + n / 64, 128 + n % 64]
  else if n < 65536 then [224 + n / 4096, 128 + n / 64 % 64, 128 + n % 64]
  else [240 + n / 262144, 128 + n / 4096 % 64, 128 + n / 64 % 64, 128 + n % 64]

/-- UTF-8 bytes of a string, Go's `[]byte(s)`. -/
def utf8Bytes (s : String) : List Nat :=
  s.data.flatMap utf8EncodeChar

/-- Big-endian interpretation of a byte list as a natural number. -/
def beNat (bytes : List Nat) : Nat :=
  bytes.foldl (fun a b => a * 256 + b) 0

/-- Big-endian encoding of a natural number on a fixed number of bytes
(most significant byte first, truncating above `len` bytes). -/
def natToBytesBE : Nat → Nat → List Nat
  | 0, _ => []
  | len + 1, x => natToBytesBE len (x / 256) ++ [x % 256]

/-- Decimal digits of a natural number (`fuel`-bounded recursion; `fuel`
at least the number of digits). -/
def natDecAux : Nat → Nat → List Char
  | 0, _ => []
  | fuel + 1, n =>
    if n < 10 then [Char.ofNat (48 + n)]
    else natDecAux fuel (n / 10) ++ [Char.ofNat (48 + n % 10)]

/-- Decimal rendering of a natural number, as produced by Go
`strconv.AppendInt` for nonnegative values. -/
def natDec (n : Nat) : String :=
  String.mk (natDecAux 32 n)

/-- Decimal rendering of an integer, as produced by Go's JSON encoder
for `int` and `int64` fields. -/
def intDec (i : Int) : String :=
  if i < 0 then "-" ++ natDec i.natAbs else natDec i.natAbs

/-! ## Substring search and replacement (Go `strings.ReplaceAll`) -/

/-- Boolean test that `pat` is a prefix of `l`. -/
def prefixOfB : List Char → List Char → Bool
  | [], _ => true
  | _ :: _, [] => false
  | a :: as, b :: bs => a == b && prefixOfB as bs

/-- Boolean test that `pat` occurs as a contiguous substring of `l`. -/
def hasSubL (pat : List Char) : List Char → Bool
  | [] => prefixOfB pat []
  | c :: rest => prefixOfB pat (c :: rest) || hasSubL pat rest

/-- Scanner for Go `strings.ReplaceAll`: replaces the leftmost,
non-overlapping occurrences of `pat` by `rep`, resuming after each
replaced occurrence. `fuel` bounds the recursion and is instantiated
with the length of the list, which suffices because every step consumes
at least one character of the input. -/
def replaceAllAux (pat rep : List Char) : Nat → List Char → List Char
  | 0, l => l
  | _ + 1, [] => []
  | fuel + 1, c :: rest =>
    if pat ≠ [] ∧ prefixOfB pat (c :: rest) then
      rep ++ replaceAllAux pat rep fuel (List.drop (pat.length - 1) rest)
    else
      c :: replaceAllAux pat rep fuel rest

/-- Embedding of Go `strings.ReplaceAll` (for the nonempty patterns the
repository uses). -/
def replaceAllStr (s pat rep : String) : String :=
  String.mk (replaceAllAux pat.data rep.data s.data.length s.data)

/-! ## SHA-256 (Go `crypto/sha256`, FIPS 180-4)

The identifier deriver hashes the canonical serialization with SHA-256.
The algorithm below is the standard one: padding to 64-byte blocks with
a `0x80` byte, zeros, and the 64-bit big-endian bit length, then 64
rounds of compression per block over eight 32-bit words. -/

/-- Truncation to a 32-bit word. -/
def w32 (x : Nat) : Nat := x % 4294967296

/-- Right rotation of a 32-bit word by `k` bits (for `x < 2^32`,
`k ≤ 32`). -/
def rotr32 (x k : Nat) : Nat :=
  x / 2 ^ k + x % 2 ^ k * 2 ^ (32 - k)

/-- Bitwise complement of a 32-bit word. -/
def not32 (x : Nat) : Nat := x ^^^ 4294967295

/-- SHA-256 `Ch` function. -/
def shaCh (x y z : Nat) : Nat := (x &&& y) ^^^ (not32 x &&& z)

/-- SHA-256 `Maj` function. -/
def shaMaj (x y z : Nat) : Nat := (x &&& y) ^^^ (x &&& z) ^^^ (y &&& z)

/-- SHA-256 big Sigma0. -/
def bigSigma0 (x : Nat) : Nat := rotr32 x 2 ^^^ rotr32 x 13 ^^^ rotr32 x 22

/-- SHA-256 big Sigma1. -/
def bigSigma1 (x : Nat) : Nat := rotr32 x 6 ^^^ rotr32 x 11 ^^^ rotr32 x 25

/-- SHA-256 small sigma0. -/
def smallSigma0 (x : Nat) : Nat := rotr32 x 7 ^^^ rotr32 x 18 ^^^ x / 8

/-- SHA-256 small sigma1. -/
def smallSigma1 (x : Nat) : Nat := rotr32 x 17 ^^^ rotr32 x 19 ^^^ x / 1024

/-- The 64 SHA-256 round constants. -/
def shaK : List Nat :=
  [1116352408, 1899447441, 3049323471, 3921009573, 961987163, 1508970993,
   2453635748, 2870763221, 3624381080, 310598401, 607225278, 1426881987,
   1925078388, 2162078206, 2614888103, 3248222580, 3835390401, 4022224774,
   264347078, 604807628, 770255983, 1249150122, 1555081692, 1996064986,
   2554220882, 2821834349, 2952996808, 3210313671, 3336571891, 3584528711,
   113926993, 338241895, 666307205, 773529912, 1294757372, 1396182291,
   1695183700, 1986661051, 2177026350, 2456956037, 2730485921, 2820302411,
   3259730800, 3345764771, 3516065817, 3600352804, 4094571909, 275423344,
   430227734, 506948616, 659060556, 883997877, 958139571, 1322822218,
   1537002063, 1747873779, 1955562222, 2024104815, 2227730452, 2361852424,
   2428436474, 2756734187, 3204031479, 3329325298]

/-- Running SHA-256 state: eight 32-bit words. -/
structure ShaState where
  s0 : Nat
  s1 : Nat
  s2 : Nat
  s3 : Nat
  s4 : Nat
  s5 : Nat
  s6 : Nat
  s7 : Nat

/-- SHA-256 initial state. -/
def shaInit : ShaState :=
  ⟨1779033703, 3144134277, 1013904242, 2773480762, 1359893119, 2600822924, 528734635, 1541459225⟩

/-- Big-endian 64-bit encoding (for the padded length field). -/
def be64 (n : Nat) : List Nat := natToBytesBE 8 n

/-- SHA-256 message padding: append `0x80`, zeros to 56 mod 64, and the
bit length in 8 big-endian bytes. -/
def shaPad (msg : List Nat) : List Nat :=
  let l := msg.length
  msg ++ 128 :: List.replicate ((55 + 64 - l % 64) % 64) 0 ++ be64 (8 * l)

/-- Groups four consecutive bytes into one big-endian 32-bit word. -/
def bytesToWords : List Nat → List Nat
  | b0 :: b1 :: b2 :: b3 :: rest =>
    (b0 * 16777216 + b1 * 65536 + b2 * 256 + b3) :: bytesToWords rest
  | _ => []

/-- Extends the 16-word block schedule by `fuel` further words. -/
def extendW : Nat → List Nat → List Nat
  | 0, ws => ws
  | fuel + 1, ws =>
    let t := ws.length
    extendW fuel
      (ws ++ [w32 (smallSigma1 (ws.getD (t - 2) 0) + ws.getD (t - 7) 0 +
                   smallSigma0 (ws.getD (t - 15) 0) + ws.getD (t - 16) 0)])

/-- One SHA-256 round with round constant `k` and schedule word `w`. -/
def shaRound (st : ShaState) (kw : Nat × Nat) : ShaState :=
  let t1 := w32 (st.s7 + bigSigma1 st.s4 + shaCh st.s4 st.s5 st.s6 + kw.1 + kw.2)
  let t2 := w32 (bigSigma0 st.s0 + shaMaj st.s0 st.s1 st.s2)
  ⟨w32 (t1 + t2), st.s0, st.s1, st.s2, w32 (st.s3 + t1), st.s4, st.s5, st.s6⟩

/-- Compression of one 64-byte block into the running state. -/
def shaCompress (st : ShaState) (block : List Nat) : ShaState :=
  let ws := extendW 48 (bytesToWords block)
  let r := (shaK.zip ws).foldl shaRound st
  ⟨w32 (st.s0 + r.s0), w32 (st.s1 + r.s1), w32 (st.s2 + r.s2), w32 (st.s3 + r.s3),
   w32 (st.s4 + r.s4), w32 (st.s5 + r.s5), w32 (st.s6 + r.s6), w32 (st.s7 + r.s7)⟩

/-- Splits a byte list into 64-byte blocks (`fuel`-bounded; the fuel is
instantiated with the list length, which bounds the block count). -/
def toBlocks : Nat → List Nat → List (List Nat)
  | 0, _ => []
  | _ + 1, [] => []
  | fuel + 1, l => l.take 64 :: toBlocks fuel (l.drop 64)

/-- Big-endian bytes of one 32-bit state word. -/
def wordBytes (w : Nat) : List Nat :=
  [w / 16777216 % 256, w / 65536 % 256, w / 256 % 256, w % 256]

/-- The 32-byte SHA-256 digest of a byte list. -/
def sha256 (msg : List Nat) : List Nat :=
  let padded := shaPad msg
  let fin := (toBlocks padded.length padded).foldl shaCompress shaInit
  wordBytes fin.s0 ++ wordBytes fin.s1 ++ wordBytes fin.s2 ++ wordBytes fin.s3 ++
  wordBytes fin.s4 ++ wordBytes fin.s5 ++ wordBytes fin.s6 ++ wordBytes fin.s7

/-! ## BIP-340 Schnorr signing over secp256k1

Modelled from the external signing library used by the repository
(`github.com/btcsuite/btcd/btcec/v2/schnorr.Sign`), which implements a
BIP-340 Schnorr signature over secp256k1. The library's `Sign` follows
the BIP-340 steps: it fails when the message is not exactly 32 bytes
(`ErrInvalidHashLen`, step "Fail if m is not 32 bytes") and when the
private key scalar is zero; otherwise it lifts the key to an even-y
point, derives a deterministic nonce (retrying with a counter until the
nonce is valid), and produces the 64-byte signature
`bytes(R.x) || bytes((k + e*d) mod n)`. The nonce derivation below uses
the BIP-340 tagged-hash construction with a retry counter; the library
derives its nonces with an RFC6979-style generator instead, but no claim
in this development depends on the numeric value of a nonce, only on the
error conditions and the shape of the result. -/

/-- The secp256k1 field prime `p = 2^256 - 2^32 - 977`. -/
def secpP : Nat :=
  115792089237316195423570985008687907853269984665640564039457584007908834671663

/-- The secp256k1 group order `n`. -/
def secpN : Nat :=
  115792089237316195423570985008687907852837564279074904382605163141518161494337

/-- x-coordinate of the secp256k1 base point. -/
def secpGx : Nat :=
  55066263022277343669578718895168534326250603453777594175500187360389116729240

/-- y-coordinate of the secp256k1 base point. -/
def secpGy : Nat :=
  32670510020758816978083085130507043184471273380659243275938904335757337482424

/-- Field addition modulo `p`. -/
def addF (a b : Nat) : Nat := (a + b) % secpP

/-- Field subtraction modulo `p`. -/
def subF (a b : Nat) : Nat := (a % secpP + secpP - b % secpP) % secpP

/-- Field multiplication modulo `p`. -/
def mulF (a b : Nat) : Nat := a * b % secpP

/-- Binary modular exponentiation (`fuel`-bounded; 257 suffices for
exponents below `2^257`). -/
def powModAux : Nat → Nat → Nat → Nat → Nat
  | 0, _, _, _ => 1
  | fuel + 1, b, e, m =>
    if e = 0 then 1 % m
    else
      let h := powModAux fuel b (e / 2) m
      if e % 2 = 0 then h * h % m else h * h % m * b % m

/-- Modular exponentiation. -/
def powMod (b e m : Nat) : Nat := powModAux 257 b e m

/-- Field inverse by Fermat's little theorem. -/
def invF (a : Nat) : Nat := powMod a (secpP - 2) secpP

/-- An affine secp256k1 point; `none` is the point at infinity. -/
def SecpPoint : Type := Option (Nat × Nat)

/-- Doubling-or-addition of affine points with the standard chord and
tangent formulas. -/
def pointAdd : SecpPoint → SecpPoint → SecpPoint
  | none, q => q
  | some pq, none => some pq
  | some (x1, y1), some (x2, y2) =>
    if x1 % secpP = x2 % secpP then
      if (y1 + y2) % secpP = 0 then none
      else
        let lam := mulF (mulF 3 (mulF x1 x1)) (invF (mulF 2 y1))
        let x3 := subF (subF (mulF lam lam) x1) x2
        some (x3, subF (mulF lam (subF x1 x3)) y1)
    else
      let lam := mulF (subF y2 y1) (invF (subF x2 x1))
      let x3 := subF (subF (mulF lam lam) x1) x2
      some (x3, subF (mulF lam (subF x1 x3)) y1)

/-- Point doubling. -/
def pointDouble (p : SecpPoint) : SecpPoint := pointAdd p p

/-- Double-and-add scalar multiplication (`fuel`-bounded; 257 suffices
for scalars below `2^257`). -/
def smulAux : Nat → Nat → SecpPoint → SecpPoint
  | 0, _, _ => none
  | fuel + 1, k, p =>
    if k = 0 then none
    else
      let rest := smulAux fuel (k / 2) (pointDouble p)
      if k % 2 = 1 then pointAdd p rest else rest

/-- Scalar multiplication on secp256k1. -/
def scalarMult (k : Nat) (p : SecpPoint) : SecpPoint := smulAux 257 k p

/-- The secp256k1 base point. -/
def secpG : SecpPoint := some (secpGx, secpGy)

/-- BIP-340 tagged hash: `SHA256(SHA256(tag) || SHA256(tag) || data)`. -/
def taggedHash (tag : String) (data : List Nat) : List Nat :=
  let th := sha256 (utf8Bytes tag)
  sha256 (th ++ th ++ data)

/-- One BIP-340 signing attempt for a given candidate nonce `k0`:
rejects a zero nonce, computes `R = k0*G`, negates the nonce when `R.y`
is odd, and assembles `bytes(R.x) || bytes((k + e*d) mod n)` with the
challenge `e` the tagged hash of `R.x`, the public key and the
message. -/
def signAttemptWith (d px : Nat) (msg : List Nat) (k0 : Nat) : Option (List Nat) :=
  if k0 = 0 then none
  else
    match scalarMult k0 secpG with
    | none => none
    | some (rx, ry) =>
      some (natToBytesBE 32 rx ++ natToBytesBE 32
        (((if ry % 2 = 0 then k0 else secpN - k0) +
          beNat (taggedHash "BIP0340/challenge"
            (natToBytesBE 32 rx ++ natToBytesBE 32 px ++ msg)) % secpN * d) % secpN))

/-- One deterministic nonce attempt for the BIP-340 signing loop, at a
given retry counter. Produces the 64-byte signature when the candidate
nonce is usable. -/
def signAttempt (d px : Nat) (msg : List Nat) (counter : Nat) : Option (List Nat) :=
  signAttemptWith d px msg
    (beNat (taggedHash "BIP0340/nonce"
      (natToBytesBE 32 d ++ natToBytesBE 32 px ++ msg ++ natToBytesBE 4 counter)) % secpN)

/-- One step of the nonce retry loop: a usable attempt yields the
signature, otherwise the loop continues at the next counter. -/
def signLoopStep (next : Nat → Except String (List Nat)) (attempt : Option (List Nat))
    (counter : Nat) : Except String (List Nat) :=
  match attempt with
  | some sig => .ok sig
  | none => next (counter + 1)

/-- The nonce retry loop of the library's `Sign` (bounded here by a
fuel; the library iterates a counter until a usable nonce appears). The
loop is written with the `Nat` recursor so that its two unfolding
equations hold by plain reduction. -/
def signLoop (d px : Nat) (msg : List Nat) (fuel counter : Nat) : Except String (List Nat) :=
  Nat.rec (motive := fun _ => Nat → Except String (List Nat))
    (fun _ => .error "no usable nonce found")
    (fun _ ih counter => signLoopStep ih (signAttempt d px msg counter) counter)
    fuel counter

/-- BIP-340 Schnorr signing as performed by the library: rejects
messages that are not exactly 32 bytes and zero private keys, then signs
deterministically with the even-y lifted key. Returns the raw 64
signature bytes. -/
def schnorrSignWith (msg : List Nat) (d0 : Nat) : Except String (List Nat) :=
  if d0 = 0 then .error "private key is zero"
  else
    match scalarMult d0 secpG with
    | none => .error "public key is the point at infinity"
    | some (px, py) =>
      signLoop (if py % 2 = 0 then d0 else secpN - d0) px msg 64 0

/-- BIP-340 Schnorr signing, entry point: rejects a message that is not
exactly 32 bytes, reduces the private key modulo the group order, and
runs the even-y-adjusted signing loop. -/
def schnorrSign (privKey : Nat) (msg : List Nat) : Except String (List Nat) :=
  if msg.length ≠ 32 then .error "wrong size for message hash"
  else schnorrSignWith msg (privKey % secpN)

/-- Modelled from the signing library's `btcec.PrivKeyFromBytes`: the
bytes are read as a big-endian integer and reduced modulo the group
order; no length validation is performed and no error can be returned. -/
def privKeyFromBytes (bytes : List Nat) : Nat :=
  beNat bytes % secpN

/-! ## JSON string rendering

Go `encoding/json.Marshal` renders strings with a fixed escaping policy:
quote and backslash use backslash escapes, newline, carriage return and
tab use their short escapes, all other control characters use lowercase
`\u00xx`, and — because HTML escaping is enabled by default for
`json.Marshal` — `<`, `>` and `&` become backslash-u003c, -u003e and
-u0026, and U+2028/U+2029 become backslash-u2028 and -u2029. Everything
else is copied literally (UTF-8). -/

/-- Applies `f` to every character and concatenates the results. -/
def strConcatMap (f : Char → String) : List Char → String
  | [] => ""
  | c :: cs => f c ++ strConcatMap f cs

/-- The escapes shared by Go's encoder and a minimal JSON encoder:
quote, backslash, the three short control escapes, `\u00xx` for the
remaining control characters, and the character itself otherwise. -/
def baseEscapeChar (c : Char) : String :=
  if c = '"' then "\\\""
  else if c = '\\' then "\\\\"
  else if c = '\n' then "\\n"
  else if c = '\r' then "\\r"
  else if c = '\t' then "\\t"
  else if c.toNat < 32 then
    String.mk ['\\', 'u', '0', '0', hexDigitChar (c.toNat / 16 % 16), hexDigitChar (c.toNat % 16)]
  else String.mk [c]

/-- Go `encoding/json` escaping of one character (`Marshal` default,
HTML escaping on): the shared escapes plus `<`, `>`, `&`,
` `, ` `. -/
def goEscapeChar (c : Char) : String :=
  if c = '<' then "\\u003c"
  else if c = '>' then "\\u003e"
  else if c = '&' then "\\u0026"
  else if c.toNat = 8232 then "\\u2028"
  else if c.toNat = 8233 then "\\u2029"
  else baseEscapeChar c

/-- A JSON string literal under a given character escaper. -/
def encString (esc : Char → String) (s : String) : String :=
  "\"" ++ strConcatMap esc s.data ++ "\""

/-- Comma-separated concatenation of already-rendered JSON values. -/
def commaJoin : List String → String
  | [] => ""
  | [s] => s
  | s :: rest => s ++ "," ++ commaJoin rest

/-- A JSON array of strings under a given escaper (one tag entry). -/
def encTagEntry (esc : Char → String) (tag : List String) : String :=
  "[" ++ commaJoin (tag.map (encString esc)) ++ "]"

/-- A JSON array of arrays of strings under a given escaper (the `tags`
field; the empty list renders as `[]`, as Go renders a non-nil empty
slice). -/
def encTags (esc : Char → String) (tags : List (List String)) : String :=
  "[" ++ commaJoin (tags.map (encTagEntry esc)) ++ "]"

/-! ## The Nostr event record -/

/-- The `NostrEvent` structure shared by `part_001`, `part_002` and
`src/nostr/nostr.go`: nested tags (`Tags [][]string`). Field names and
order follow the Go declaration. -/
structure NostrEvent where
  ID : String
  Pubkey : String
  CreatedAt : Int
  Kind : Int
  Tags : List (List String)
  Content : String
  Sig : String

/-- Renders the 6-element canonical array
`[0, pubkey, created_at, kind, tags, content]` under a given string
escaper. Go's `json.Marshal` of the corresponding `[]interface{}` value
produces exactly this shape: minified (no whitespace), fields in this
order, integers in decimal. -/
def jsonArray6 (esc : Char → String) (e : NostrEvent) : String :=
  "[0," ++ encString esc e.Pubkey ++ "," ++ intDec e.CreatedAt ++ "," ++
    intDec e.Kind ++ "," ++ encTags esc e.Tags ++ "," ++ encString esc e.Content ++ "]"

/-- Embedding of `SerializeEventForID` from `src/unnamed/part_002`
(lines 154-173) and, identically, `src/nostr/nostr.go` (lines 23-42):
`json.Marshal` of `[]interface{}{0, Pubkey, CreatedAt, Kind, Tags,
Content}`. The Go function also has an error return, but `json.Marshal`
cannot fail on this value (all members are strings, integers and string
slices), so the embedding is total. -/
def SerializeEventForID (e : NostrEvent) : String :=
  jsonArray6 goEscapeChar e

/-- The rendering the specification describes, built from the spec's
words only: the minified JSON rendering of the 6-element array
`[0, authorKey, createdAt, kind, tags, content]` with no extra
whitespace and minimal escaping (only what JSON requires: quote,
backslash and control characters). -/
def specMinifiedJson (e : NostrEvent) : String :=
  jsonArray6 baseEscapeChar e

/-- Embedding of Go `json.Marshal` of a full `NostrEvent` value (the
object form with keys `id`, `pubkey`, `created_at`, `kind`, `tags`,
`content`, `sig`, in declaration order), used by the wire envelope of
every `SendEvent` variant. -/
def marshalEventObject (e : NostrEvent) : String :=
  "\x7b\"id\":" ++ encString goEscapeChar e.ID ++
    ",\"pubkey\":" ++ encString goEscapeChar e.Pubkey ++
    ",\"created_at\":" ++ intDec e.CreatedAt ++
    ",\"kind\":" ++ intDec e.Kind ++
    ",\"tags\":" ++ encTags goEscapeChar e.Tags ++
    ",\"content\":" ++ encString goEscapeChar e.Content ++
    ",\"sig\":" ++ encString goEscapeChar e.Sig ++ "\x7d"

/-- Embedding of `json.Marshal([]interface{}{"EVENT", event})`: the
2-element wire envelope every publisher writes. -/
def marshalEnvelope (e : NostrEvent) : String :=
  "[\"EVENT\"," ++ marshalEventObject e ++ "]"

/-- Embedding of `ComputeEventID`, which is identical in `src/main.go`
(lines 176-180), `src/unnamed/part_001` (lines 104-110), `src/unnamed/
part_002` (lines 175-179) and `src/nostr/nostr.go` (lines 44-48):
the lowercase hex encoding of the SHA-256 digest of the UTF-8 bytes of
the serialized event string. A pure, total function. -/
def ComputeEventID (serializedEvent : String) : String :=
  hexEncodeToString (sha256 (utf8Bytes serializedEvent))

/-! ## Mention stripping (`part_001`, `PrepareMessageContent`)

`PrepareMessageContent` deletes every match of the three Go regular
expressions `<#[0-9]+>`, `<@!?[0-9]+>` and `<@&[0-9]+>` from the message
text. For these patterns a match starting at a given position is unique
(the digit run cannot contain the closing delimiter), so Go's
`ReplaceAllString` with the empty replacement is exactly a left-to-right
scan that deletes a match whenever one starts at the current position
and otherwise keeps the character. -/

/-- Consumes any further digits and then the closing `>`; fails
otherwise. Used after the first mandatory digit of a marker. -/
def afterDigits : List Char → Option (List Char)
  | [] => none
  | c :: rest =>
    if c = '>' then some rest
    else if c.isDigit then afterDigits rest
    else none

/-- Matches `<#[0-9]+>` at the head of the list, returning the rest. -/
def matchChan : List Char → Option (List Char)
  | '<' :: '#' :: c :: rest => if c.isDigit then afterDigits rest else none
  | _ => none

/-- Matches `<@!?[0-9]+>` at the head of the list, returning the rest.
The `&` of a role mention is neither `!` nor a digit, so role markers do
not match here. -/
def matchUser : List Char → Option (List Char)
  | '<' :: '@' :: c :: rest =>
    if c = '!' then
      match rest with
      | d :: rest2 => if d.isDigit then afterDigits rest2 else none
      | [] => none
    else if c.isDigit then afterDigits rest
    else none
  | _ => none

/-- Matches `<@&[0-9]+>` at the head of the list, returning the rest. -/
def matchRole : List Char → Option (List Char)
  | '<' :: '@' :: '&' :: c :: rest => if c.isDigit then afterDigits rest else none
  | _ => none

/-- Left-to-right scan deleting every occurrence matched by `matcher`
(`fuel`-bounded; the fuel is instantiated with the input length, and
every step consumes at least one character). -/
def scrubAux (matcher : List Char → Option (List Char)) : Nat → List Char → List Char
  | 0, l => l
  | _ + 1, [] => []
  | fuel + 1, c :: rest =>
    match matcher (c :: rest) with
    | some rem => scrubAux matcher fuel rem
    | none => c :: scrubAux matcher fuel rest

/-- Whether `matcher` matches at some position of the list. -/
def hasMatchB (matcher : List Char → Option (List Char)) : List Char → Bool
  | [] => (matcher []).isSome
  | c :: rest => (matcher (c :: rest)).isSome || hasMatchB matcher rest

/-- Embedding of `removeMentions` from `part_001` (lines 52-56),
instantiated with one of the three mention matchers in place of the
compiled regular expression. -/
def removeMentions (matcher : List Char → Option (List Char)) (content : String) : String :=
  String.mk (scrubAux matcher content.data.length content.data)

/-- Embedding of `PrepareMessageContent` from `part_001` (lines 31-50):
strips channel, user and role mentions in that order, then appends each
attachment URL on its own new line, decoding the literal 6-character
sequence backslash-u0026 in the URL to `&`. The Discord message is
embedded as its content string plus the ordered list of attachment
URLs. -/
def PrepareMessageContent (content : String) (attachments : List String) : String :=
  let c1 := removeMentions matchChan content
  let c2 := removeMentions matchUser c1
  let c3 := removeMentions matchRole c2
  attachments.foldl (fun acc url => acc ++ "\n" ++ replaceAllStr url "\\u0026" "&") c3

/-! ## Network environment

WebSocket effects are embedded with an explicit environment describing
whether dial, write and read succeed, together with a trace of the
actions a function performed, in order. -/

/-- Outcome of the network operations available to one publish call. -/
structure NetEnv where
  dialOk : Bool
  writeOk : Bool
  readOk : Bool

/-- One performed network action. -/
inductive NetAct where
  | dial (url : String)
  | write (frame : String)
  | read
deriving DecidableEq, Repr

/-- Number of dial actions in a trace. -/
def countDials : List NetAct → Nat
  | [] => 0
  | .dial _ :: rest => countDials rest + 1
  | _ :: rest => countDials rest

/-- The frames written in a trace, in order. -/
def writesOf : List NetAct → List String
  | [] => []
  | .write f :: rest => f :: writesOf rest
  | _ :: rest => writesOf rest

/-- Number of read actions in a trace. -/
def countReads : List NetAct → Nat
  | [] => 0
  | .read :: rest => countReads rest + 1
  | _ :: rest => countReads rest

/-- Publisher-level errors, one constructor per failing operation of the
Go code (each Go branch wraps the transport error in its own message). -/
inductive SendErr where
  | connect (msg : String)
  | writeFrame (msg : String)
  | readResp (msg : String)
deriving DecidableEq, Repr

/-- Pipeline errors of `SignAndSendEvent`, one constructor per Go error
branch. -/
inductive PipeErr where
  | keyDecode (msg : String)
  | signFailed (msg : String)
  | send (e : SendErr)
deriving DecidableEq, Repr

/-! ## The Schnorr signing stage (`part_001` lines 135-152 and
`part_002` lines 182-194, identical up to logging) -/

/-- Embedding of `SignEventSchnorr`: hex-decodes the event id, signs the
decoded bytes with the BIP-340 Schnorr primitive and hex-encodes the
64-byte signature. The `*btcec.PrivateKey` argument is embedded as its
scalar value. -/
def SignEventSchnorr (eventID : String) (privKey : Nat) : Except String String :=
  match hexDecodeString eventID with
  | .error e => .error ("failed to decode event ID: " ++ e)
  | .ok idBytes =>
    match schnorrSign privKey idBytes with
    | .error e => .error ("failed to sign event with Schnorr: " ++ e)
    | .ok sig => .ok (hexEncodeToString sig)

namespace NostrLib

/-- Embedding of `SerializeEventForID` from `part_001` (lines 81-102):
the plain marshalled array with every literal output occurrence of the
6-character sequence backslash-u0026 replaced by `&`
(`strings.ReplaceAll(eventStr, "\\u0026", "&")`). -/
def SerializeEventForID (e : NostrEvent) : String :=
  replaceAllStr (NdmBridge.SerializeEventForID e) "\\u0026" "&"

/-- Embedding of `SendEvent` from `part_001` (lines 155-187): dial the
relay, marshal the 2-element envelope, write it as one text frame, then
read exactly one response frame; any readable response is success. Each
failing operation aborts with its own error and nothing is retried. -/
def SendEvent (env : NetEnv) (relayURL : String) (event : NostrEvent) :
    Except SendErr Unit × List NetAct :=
  if env.dialOk then
    let frame := marshalEnvelope event
    if env.writeOk then
      if env.readOk then (.ok (), [.dial relayURL, .write frame, .read])
      else (.error (.readResp "failed to read response from relay"),
            [.dial relayURL, .write frame, .read])
    else (.error (.writeFrame "failed to send event"), [.dial relayURL, .write frame])
  else (.error (.connect "error connecting to Nostr relay"), [.dial relayURL])

/-- Embedding of `SignAndSendEvent` from `part_001` (lines 113-132):
decode the private-key hex (failing on a decode error), build the key,
Schnorr-sign the event id (failing on a signing error), store the
signature and hand the event to the publisher. -/
def SignAndSendEvent (env : NetEnv) (event : NostrEvent) (privKeyHex relayURL : String) :
    Except PipeErr Unit × List NetAct :=
  match hexDecodeString privKeyHex with
  | .error e => (.error (.keyDecode ("failed to decode private key: " ++ e)), [])
  | .ok privKeyBytes =>
    match SignEventSchnorr event.ID (privKeyFromBytes privKeyBytes) with
    | .error e => (.error (.signFailed ("failed to sign event: " ++ e)), [])
    | .ok sig =>
      match SendEvent env relayURL { event with Sig := sig } with
      | (.ok _, acts) => (.ok (), acts)
      | (.error se, acts) => (.error (.send se), acts)

end NostrLib

namespace Main2

/-- Embedding of `SendEvent` from `part_002` (lines 197-203): marshal
the envelope and write it as one text frame on the already-established
shared connection. No response is read. -/
def SendEvent (env : NetEnv) (event : NostrEvent) : Except SendErr Unit × List NetAct :=
  let frame := marshalEnvelope event
  if env.writeOk then (.ok (), [.write frame])
  else (.error (.writeFrame "websocket write failed"), [.write frame])

/-- Result of one run of the `part_002` message handler: the Record it
constructed (if any), whether it handed the record to the publisher, and
the network actions performed. -/
structure HandlerOut where
  record : Option NostrEvent
  published : Bool
  acts : List NetAct

/-- Embedding of `messageCreateHandler` from `part_002` (lines 99-141).
The Discord session and message are embedded by the fields the handler
reads: the author id, the bot's own user id, the message channel id, the
configured channel id and the message content; `now` is the value of
`time.Now().Unix()`. The serialization error branch of the Go code is
unreachable in the embedding because `json.Marshal` cannot fail on this
value. The handler discards the error of `hex.DecodeString` on the
configured private key (Go's `privKeyBytes, _ :=`), so the partial
decode result feeds `btcec.PrivKeyFromBytes`. On a signing error the
handler returns without publishing; otherwise it hands the signed event
to `SendEvent` and only logs the outcome. -/
def messageCreateHandler (authorID botUserID msgChannelID channelID : String)
    (content pubkey privKeyHex : String) (now : Int) (env : NetEnv) : HandlerOut :=
  if authorID == botUserID then ⟨none, false, []⟩
  else if msgChannelID == channelID then
    let event : NostrEvent := ⟨"", pubkey, now, 1, [], content, ""⟩
    let eventStr := SerializeEventForID event
    let event := { event with ID := ComputeEventID eventStr }
    let privKey := privKeyFromBytes (hexDecodePartial privKeyHex)
    match SignEventSchnorr event.ID privKey with
    | .error _ => ⟨some event, false, []⟩
    | .ok sig =>
      let event := { event with Sig := sig }
      let sent := SendEvent env event
      ⟨some event, true, sent.2⟩
  else ⟨none, false, []⟩

end Main2

namespace NostrPkg

/-- Embedding of `SendEvent` from `src/nostr/nostr.go` (lines 51-77):
marshal the envelope, write it as one text frame on the given
connection, then read exactly one response frame; any readable response
is treated as success and only logged. -/
def SendEvent (env : NetEnv) (event : NostrEvent) : Except SendErr Unit × List NetAct :=
  let frame := marshalEnvelope event
  if env.writeOk then
    if env.readOk then (.ok (), [.write frame, .read])
    else (.error (.readResp "failed to read response from relay"), [.write frame, .read])
  else (.error (.writeFrame "failed to send event"), [.write frame])

end NostrPkg

namespace Main0

/-- The prototype `NostrEvent` of `src/main.go` (lines 146-154), whose
`Tags` field is a flat `[]string`. -/
structure NostrEvent where
  ID : String
  Pubkey : String
  CreatedAt : Int
  Kind : Int
  Tags : List String
  Content : String
  Sig : String

/-- Go `json.Marshal` of the prototype event object (flat tag list). -/
def marshalEventObjectFlat (e : NostrEvent) : String :=
  "\x7b\"id\":" ++ encString goEscapeChar e.ID ++
    ",\"pubkey\":" ++ encString goEscapeChar e.Pubkey ++
    ",\"created_at\":" ++ intDec e.CreatedAt ++
    ",\"kind\":" ++ intDec e.Kind ++
    ",\"tags\":" ++ encTagEntry goEscapeChar e.Tags ++
    ",\"content\":" ++ encString goEscapeChar e.Content ++
    ",\"sig\":" ++ encString goEscapeChar e.Sig ++ "\x7d"

/-- Embedding of the prototype `SerializeEvent` from `src/main.go`
(lines 157-174): `json.Marshal` of the whole event object followed by
seven chained `strings.ReplaceAll` calls (note that the third doubles
every backslash, including those just introduced by the first two). -/
def SerializeEvent (e : NostrEvent) : String :=
  let s0 := marshalEventObjectFlat e
  let s1 := replaceAllStr s0 "\n" "\\n"
  let s2 := replaceAllStr s1 "\"" "\\\""
  let s3 := replaceAllStr s2 "\\" "\\\\"
  let s4 := replaceAllStr s3 "\r" "\\r"
  let s5 := replaceAllStr s4 "\t" "\\t"
  let s6 := replaceAllStr s5 "\x08" "\\b"
  replaceAllStr s6 "\x0c" "\\f"

/-- Process-level outcome of one run of the prototype handler. -/
inductive Outcome where
  | ignoredSelf
  | ignoredChannel
  | panicked
  | sent
  | sendFailed
deriving DecidableEq, Repr

/-- Embedding of `messageCreateHandler` from `src/main.go`
(lines 101-144). The debug `json.MarshalIndent` of the message cannot
fail and is omitted. `SignEvent` (ECDSA over the serialized string with
a random nonce) cannot influence the control flow because both its error and
its result are stored without being checked; the produced signature hex
is abstracted as the `ecdsaSig` argument. The handler dials the relay
for this message and discards the dial error (`ws, _, _ :=`); when the
dial failed, `ws` is nil and both the deferred `ws.Close()` and
`ws.WriteMessage` inside `SendEvent` dereference a nil
`*websocket.Conn`, which panics and crashes the process: the embedding
returns `Outcome.panicked` for that path. -/
def messageCreateHandler (authorID botUserID msgChannelID channelID : String)
    (content pubkey : String) (now : Int) (ecdsaSig : String) (env : NetEnv) : Outcome :=
  if authorID == botUserID then .ignoredSelf
  else if msgChannelID == channelID then
    let event : NostrEvent := ⟨"", pubkey, now, 1, [], content, ""⟩
    let eventStr := SerializeEvent event
    let event := { event with ID := ComputeEventID eventStr }
    let _event := { event with Sig := ecdsaSig }
    if env.dialOk then
      if env.writeOk then .sent else .sendFailed
    else .panicked
  else .ignoredChannel

end Main0

/-! ## Predicates and concrete vectors used by the claim statements -/

/-- Boolean success test for `Except`. -/
def exceptOkB {ε α : Type} : Except ε α → Bool
  | .ok _ => true
  | .error _ => false

/-- Whether a character is a lowercase hexadecimal digit. -/
def isLowerHexChar (c : Char) : Bool :=
  ('0' ≤ c && c ≤ '9') || ('a' ≤ c && c ≤ 'f')

/-- Whether every character of a string is a lowercase hex digit. -/
def isLowerHexStr (s : String) : Bool :=
  s.data.all isLowerHexChar

/-- Characters on which Go's JSON escaping and minimal JSON escaping
agree: everything except `&`, `<`, `>`, U+2028 and U+2029. -/
def plainChar (c : Char) : Bool :=
  !(c == '&' || c == '<' || c == '>' || c.toNat == 8232 || c.toNat == 8233)

/-- A string all of whose characters are `plainChar`. -/
def plainStr (s : String) : Bool :=
  s.data.all plainChar

/-- An event all of whose string fields entering the canonical
serialization consist of `plainChar` characters. -/
def goodEventChars (e : NostrEvent) : Bool :=
  plainStr e.Pubkey && plainStr e.Content && e.Tags.all (fun t => t.all plainStr)

/-- Shape check for the result of `SignEventSchnorr`: an error is
accepted; a returned signature must be 128 lowercase hex characters and
must be exactly the hex encoding of the Schnorr signature of the 32
bytes the event id decodes to. -/
def sigShapeB (id : String) (key : Nat) : Bool :=
  match SignEventSchnorr id key with
  | .error _ => true
  | .ok s =>
    s.length == 128 && isLowerHexStr s &&
      (match hexDecodeString id with
       | .ok b =>
         b.length == 32 &&
           (match schnorrSign key b with
            | .ok sb => s == hexEncodeToString sb
            | .error _ => false)
       | .error _ => false)

/-- Byte length of a hex string when it decodes, `none` otherwise. -/
def hexLenOf (s : String) : Option Nat :=
  match hexDecodeString s with
  | .ok b => some b.length
  | .error _ => none

/-- Whether a pipeline result is specifically a key-decode error. -/
def isKeyDecodeErrB : Except PipeErr Unit → Bool
  | .error (.keyDecode _) => true
  | _ => false

/-- The sequence of attachment lines `PrepareMessageContent` appends:
each URL on its own new line, in order, with the literal
backslash-u0026 sequence decoded to `&`. -/
def attachmentLines : List String → String
  | [] => ""
  | u :: us => "\n" ++ replaceAllStr u "\\u0026" "&" ++ attachmentLines us

/-- Whether the text contains any channel, user or role mention
marker. -/
def hasAnyMarkerB (s : String) : Bool :=
  hasMatchB matchChan s.data || hasMatchB matchUser s.data || hasMatchB matchRole s.data

/-- The network environment in which dial, write and read all
succeed. -/
def envAll : NetEnv := ⟨true, true, true⟩

/-- The author key of the spec's end-to-end test vector: "ab" repeated
32 times. -/
def abKey : String := String.join (List.replicate 32 "ab")

/-- The spec's end-to-end test vector: `authorKey = "ab"*32`,
`createdAt = 1700000000`, `kind = 1`, `tags = []`, `content = "hi"`. -/
def testVector : NostrEvent := ⟨"", abKey, 1700000000, 1, [], "hi", ""⟩

/-- The canonical serialization the spec requires for `testVector`. -/
def testVectorOutput : String :=
  "[0,\"abababababababababababababababababababababababababababababababab\",1700000000,1,[],\"hi\"]"

/-- The test vector as the prototype's flat-tag event (equal field
values, `tags = []`). -/
def testVectorFlat : Main0.NostrEvent := ⟨"", abKey, 1700000000, 1, [], "hi", ""⟩

/-- An event whose content contains an ampersand. -/
def ampVector : NostrEvent := ⟨"", abKey, 1700000000, 1, [], "a&b", ""⟩

/-- An event with a well-formed 64-hex id, used to exercise the signing
stage. -/
def idVector : NostrEvent :=
  ⟨"e3b0c44298fc1c149afbf4c8996fb92427ae41e4649b934ca495991b7852b855",
   abKey, 1700000000, 1, [], "hi", ""⟩

/-- A private-key hex string that is valid hex but decodes to a single
byte — the wrong length for a 32-byte key. -/
def wrongLenKeyHex : String := "ab"

/-- A malformed private-key hex string (invalid hex digits). -/
def badKeyHex : String := "zz"

/-- An event-id string that is valid hex but only 2 bytes long. -/
def shortIdHex : String := "abcd"

/-- The spec's mention-stripping test input. -/
def mentionVectorIn : String := "hello <@123456> and <#789> and <@&42>"

/-- The spec's mention-stripping expected output. -/
def mentionVectorOut : String := "hello  and  and "

/-- A message text containing no mention markers. -/
def plainMessage : String := "just a plain message"

/-- The first SHA-256 reference vector input (FIPS 180-4 / RFC 6234). -/
def shaVecAbc : String := "abc"

/-- SHA-256 of `"abc"` per the published reference vectors. -/
def shaVecAbcDigest : String :=
  "ba7816bf8f01cfea414140de5dae2223b00361a396177a9cb410ff61f20015ad"

/-- SHA-256 of the empty string per the published reference vectors. -/
def shaVecEmptyDigest : String :=
  "e3b0c44298fc1c149afbf4c8996fb92427ae41e4649b934ca495991b7852b855"

/-- The event the `part_002` handler constructs before computing the id:
configured pubkey, current time, kind 1, no tags, the message content. -/
def baseEvent (pubkey : String) (now : Int) (content : String) : NostrEvent :=
  ⟨"", pubkey, now, 1, [], content, ""⟩

/-- The 6-character escape sequence backslash-u0026 that `part_001`
post-processes away. -/
def ampEscape : String := "\\u0026"

/-- A fixed relay URL used in concrete instantiations. -/
def relayUrl : String := "wss://relay.example.com"

/-- The empty input string (SHA-256 reference vector). -/
def emptyInput : String := ""

/-- Boolean universal quantification over an optional value. -/
def optionAllB {α : Type} (p : α → Bool) : Option α → Bool
  | none => true
  | some a => p a

/-! # Theorems

Helper lemmas come first; the ten claim theorems (with their witnesses
and counterexamples) follow. -/

/-! ## String plumbing -/

theorem strData_append (a b : String) : (a ++ b).data = a.data ++ b.data := by
  cases a
  cases b
  rfl

theorem strExt {a b : String} (h : a.data = b.data) : a = b := by
  cases a
  cases b
  exact congrArg String.mk h

theorem strMk_data (s : String) : String.mk s.data = s := by
  cases s
  rfl

theorem strAppend_assoc (a b c : String) : a ++ b ++ c = a ++ (b ++ c) := by
  apply strExt
  simp [strData_append]

theorem strAppend_empty (a : String) : a ++ "" = a := by
  apply strExt
  simp [strData_append]

/-! ## Scanners: identity in the absence of matches -/

theorem scrubAux_id (m : List Char → Option (List Char)) (fuel : Nat) (l : List Char)
    (h : hasMatchB m l = false) : scrubAux m fuel l = l := by
  induction fuel generalizing l with
  | zero => rfl
  | succ fuel ih =>
    cases l with
    | nil => rfl
    | cons c rest =>
      have h' := h
      simp only [hasMatchB, Bool.or_eq_false_iff] at h'
      obtain ⟨h1, h2⟩ := h'
      have hm : m (c :: rest) = none := Option.not_isSome_iff_eq_none.mp (by simp [h1])
      simp only [scrubAux, hm]
      rw [ih rest h2]

theorem removeMentions_id (m : List Char → Option (List Char)) (s : String)
    (h : hasMatchB m s.data = false) : removeMentions m s = s := by
  unfold removeMentions
  rw [scrubAux_id m _ _ h, strMk_data]

theorem replaceAllAux_id (pat rep : List Char) (fuel : Nat) (l : List Char)
    (h : hasSubL pat l = false) : replaceAllAux pat rep fuel l = l := by
  induction fuel generalizing l with
  | zero => rfl
  | succ fuel ih =>
    cases l with
    | nil => rfl
    | cons c rest =>
      have h' := h
      simp only [hasSubL, Bool.or_eq_false_iff] at h'
      obtain ⟨h1, h2⟩ := h'
      rw [replaceAllAux, if_neg (by simp [h1]), ih rest h2]

theorem replaceAllStr_id (s pat rep : String) (h : hasSubL pat.data s.data = false) :
    replaceAllStr s pat rep = s := by
  unfold replaceAllStr
  rw [replaceAllAux_id _ _ _ _ h, strMk_data]

/-! ## Attachment folding -/

theorem foldl_attachmentLines (urls : List String) (acc : String) :
    urls.foldl (fun acc url => acc ++ "\n" ++ replaceAllStr url "\\u0026" "&") acc
      = acc ++ attachmentLines urls := by
  induction urls generalizing acc with
  | nil => simp [attachmentLines, strAppend_empty]
  | cons u us ih =>
    simp only [List.foldl_cons, attachmentLines]
    rw [ih]
    rw [strAppend_assoc, strAppend_assoc, strAppend_assoc]

/-! ## Escaper agreement on plain characters -/

theorem goEscapeChar_plain (c : Char) (h : plainChar c = true) :
    goEscapeChar c = baseEscapeChar c := by
  simp only [plainChar, Bool.not_eq_true', Bool.or_eq_false_iff] at h
  obtain ⟨⟨⟨⟨h1, h2⟩, h3⟩, h4⟩, h5⟩ := h
  unfold goEscapeChar
  rw [if_neg (by simpa using h2), if_neg (by simpa using h3), if_neg (by simpa using h1),
    if_neg (by simpa using h4), if_neg (by simpa using h5)]

theorem strConcatMap_congr (f g : Char → String) (l : List Char)
    (h : ∀ c ∈ l, f c = g c) : strConcatMap f l = strConcatMap g l := by
  induction l with
  | nil => rfl
  | cons c cs ih =>
    simp only [strConcatMap]
    rw [h c (List.mem_cons_self c cs), ih (fun d hd => h d (List.mem_cons_of_mem c hd))]

theorem encString_plain (s : String) (h : plainStr s = true) :
    encString goEscapeChar s = encString baseEscapeChar s := by
  unfold encString
  rw [strConcatMap_congr goEscapeChar baseEscapeChar s.data
    (fun c hc => goEscapeChar_plain c (by
      simp only [plainStr, List.all_eq_true] at h
      exact h c hc))]

theorem encTagEntry_plain (tag : List String) (h : ∀ s ∈ tag, plainStr s = true) :
    encTagEntry goEscapeChar tag = encTagEntry baseEscapeChar tag := by
  unfold encTagEntry
  rw [List.map_congr_left (fun s hs => encString_plain s (h s hs))]

theorem encTags_plain (tags : List (List String))
    (h : ∀ t ∈ tags, ∀ s ∈ t, plainStr s = true) :
    encTags goEscapeChar tags = encTags baseEscapeChar tags := by
  unfold encTags
  rw [List.map_congr_left (fun t ht => encTagEntry_plain t (h t ht))]

/-! ## Hex encoding: length and character set -/

theorem hexDigitChar_lower (n : Nat) (h : n < 16) : isLowerHexChar (hexDigitChar n) = true := by
  interval_cases n <;> decide

theorem hexEncode_length (bytes : List Nat) :
    (hexEncodeToString bytes).length = 2 * bytes.length := by
  unfold hexEncodeToString
  show (bytes.flatMap _).length = 2 * bytes.length
  induction bytes with
  | nil => rfl
  | cons b bs ih =>
    simp only [List.flatMap_cons, List.length_append, ih, List.length_cons]
    simp only [List.length_cons, List.length_nil]
    omega

theorem hexEncode_lower (bytes : List Nat) :
    isLowerHexStr (hexEncodeToString bytes) = true := by
  unfold hexEncodeToString isLowerHexStr
  show (bytes.flatMap _).all isLowerHexChar = true
  induction bytes with
  | nil => rfl
  | cons b bs ih =>
    simp only [List.flatMap_cons, List.all_append, Bool.and_eq_true, ih, and_true]
    simp only [List.all_cons, List.all_nil, Bool.and_true, Bool.and_eq_true]
    exact ⟨hexDigitChar_lower _ (Nat.mod_lt _ (by omega)),
           hexDigitChar_lower _ (Nat.mod_lt _ (by omega))⟩

/-! ## SHA-256 digest length -/

theorem sha256_length (msg : List Nat) : (sha256 msg).length = 32 := by
  simp [sha256, wordBytes]

/-! ## Shape of Schnorr signatures -/

theorem natToBytesBE_length (len x : Nat) : (natToBytesBE len x).length = len := by
  induction len generalizing x with
  | zero => rfl
  | succ n ih => simp [natToBytesBE, ih]

theorem signAttemptWith_some (d px k0 : Nat) (msg sig : List Nat)
    (h : signAttemptWith d px msg k0 = some sig) : sig.length = 64 := by
  unfold signAttemptWith at h
  split at h
  · exact absurd h (by simp)
  · split at h
    · exact absurd h (by simp)
    · have hs := Option.some.inj h
      rw [← hs]
      simp [natToBytesBE_length]

theorem signAttempt_some (d px c : Nat) (msg sig : List Nat)
    (h : signAttempt d px msg c = some sig) : sig.length = 64 :=
  signAttemptWith_some d px _ msg sig h

theorem signLoop_zero (d px : Nat) (msg : List Nat) (c : Nat) :
    signLoop d px msg 0 c = .error "no usable nonce found" := rfl

theorem signLoop_succ (d px : Nat) (msg : List Nat) (fuel c : Nat) :
    signLoop d px msg (fuel + 1) c =
      signLoopStep (signLoop d px msg fuel) (signAttempt d px msg c) c := rfl

theorem signLoop_ok_length (d px : Nat) (msg : List Nat) (fuel c : Nat) (sig : List Nat)
    (h : signLoop d px msg fuel c = .ok sig) : sig.length = 64 := by
  induction fuel generalizing c with
  | zero => rw [signLoop_zero] at h; exact nomatch h
  | succ fuel ih =>
    rw [signLoop_succ] at h
    cases ha : signAttempt d px msg c with
    | some s =>
      rw [ha] at h
      unfold signLoopStep at h
      have hss := Except.ok.inj h
      rw [← hss]
      exact signAttempt_some d px c msg s ha
    | none =>
      rw [ha] at h
      unfold signLoopStep at h
      exact ih (c + 1) h

theorem schnorrSignWith_ok_length (d0 : Nat) (m sig : List Nat)
    (h : schnorrSignWith m d0 = .ok sig) : sig.length = 64 := by
  unfold schnorrSignWith at h
  split at h
  · exact absurd h (by simp)
  · split at h
    · exact absurd h (by simp)
    · exact signLoop_ok_length _ _ _ _ _ _ h

theorem schnorrSign_ok_shape (k : Nat) (m sig : List Nat) (h : schnorrSign k m = .ok sig) :
    m.length = 32 ∧ sig.length = 64 := by
  unfold schnorrSign at h
  by_cases hl : m.length ≠ 32
  · rw [if_pos hl] at h
    exact absurd h (by simp)
  · rw [if_neg hl] at h
    exact ⟨not_not.mp hl, schnorrSignWith_ok_length _ _ _ h⟩

/-! ## Claim C7: the content normalizer -/

/-- C7: for every raw message text and ordered attachment list,
`PrepareMessageContent` equals the mention-stripped text followed by
each attachment URL on its own new line in the supplied order with the
literal backslash-u0026 sequences decoded to `&`; it is a pure total
function; on text containing no channel, user or role marker and no
attachments it is the identity; and the spec's stripping vector
normalizes as required. Totality and purity hold by construction (the
embedding is a Lean function). -/
theorem prepareMessageContent_spec (text : String) (urls : List String) :
    PrepareMessageContent text urls = PrepareMessageContent text [] ++ attachmentLines urls ∧
    (hasAnyMarkerB text = false → PrepareMessageContent text [] = text) ∧
    PrepareMessageContent mentionVectorIn [] = mentionVectorOut := by
  refine ⟨?_, ?_, by decide⟩
  · show List.foldl _ _ urls = _
    rw [foldl_attachmentLines]
    rfl
  · intro h
    simp only [hasAnyMarkerB, Bool.or_eq_false_iff] at h
    obtain ⟨⟨h1, h2⟩, h3⟩ := h
    unfold PrepareMessageContent
    simp only [List.foldl_nil]
    rw [removeMentions_id _ _ h1, removeMentions_id _ _ h2, removeMentions_id _ _ h3]

/-- Witness for C7 at a concrete marker-free message. -/
theorem prepareMessageContent_spec_witness :
    hasAnyMarkerB plainMessage = false ∧
    PrepareMessageContent plainMessage [] = plainMessage :=
  ⟨by decide, (prepareMessageContent_spec plainMessage []).2.1 (by decide)⟩

/-! ## Claim C8: the channel and self-message filter -/

/-- C8: the `part_002` handler constructs a Record or hands one to the
publisher exactly when the author is not the bot's own identity and the
message channel equals the configured channel; otherwise no Record is
created and no publish is attempted. -/
theorem messageCreateHandler_filter (authorID botUserID msgChannelID channelID : String)
    (content pubkey privKeyHex : String) (now : Int) (env : NetEnv) :
    ((Main2.messageCreateHandler authorID botUserID msgChannelID channelID content pubkey
        privKeyHex now env).record.isSome ||
     (Main2.messageCreateHandler authorID botUserID msgChannelID channelID content pubkey
        privKeyHex now env).published) =
      (!(authorID == botUserID) && (msgChannelID == channelID)) := by
  unfold Main2.messageCreateHandler
  cases hb : (authorID == botUserID) with
  | true => simp [hb]
  | false =>
    cases hc : (msgChannelID == channelID) with
    | true =>
      simp only [hb, hc, Bool.false_eq_true, if_false, if_true, Bool.not_false, Bool.and_self]
      split <;> simp
    | false => simp [hb, hc]

/-! ## Claim C9: per-message failure containment -/

/-- C9: evaluation of the prototype handler (`src/main.go`) at a
failing input. A watched-channel message from a non-bot author whose
per-message relay dial fails makes the handler dereference the nil
`*websocket.Conn` (`ws, _, _ :=` discards the dial error at line 137;
`defer ws.Close()` and `ws.WriteMessage` then panic), crashing the
process rather than terminating the handler normally. -/
theorem main0_handler_panics_on_dial_failure :
    Main0.messageCreateHandler "user1" "botid" "chan1" "chan1" "hello" abKey 1700000000
      "sigbytes" ⟨false, true, true⟩ = Main0.Outcome.panicked := rfl

/-! ## Claim C6: the relay publisher -/

/-- C6 counterexample: the `part_002` publisher (`SendEvent`, lines
197-203) returns success after writing the envelope frame while
performing zero reads — it does not block until a response frame is
read, contradicting the claim for this publisher. -/
theorem main2_sendEvent_no_read :
    exceptOkB (Main2.SendEvent envAll idVector).1 = true ∧
    countReads (Main2.SendEvent envAll idVector).2 = 0 ∧
    writesOf (Main2.SendEvent envAll idVector).2 = [marshalEnvelope idVector] :=
  ⟨rfl, rfl, rfl⟩

/-- C6 (amended): the `part_001` publisher dials once and never
retries, writes exactly the one envelope frame (when the dial
succeeded), reads exactly one response frame (when the write happened),
and succeeds exactly when dial, write and read all succeed — any
readable response is success; the `nostr.go` publisher behaves the same
on an already-established connection (no dial); the `part_002` variant
writes the frame without reading (see the counterexample). -/
theorem publisher_protocol (env : NetEnv) (url : String) (e : NostrEvent) :
    countDials (NostrLib.SendEvent env url e).2 = 1 ∧
    writesOf (NostrLib.SendEvent env url e).2 =
      (if env.dialOk then [marshalEnvelope e] else []) ∧
    countReads (NostrLib.SendEvent env url e).2 =
      (if env.dialOk && env.writeOk then 1 else 0) ∧
    exceptOkB (NostrLib.SendEvent env url e).1 =
      (env.dialOk && env.writeOk && env.readOk) ∧
    countDials (NostrPkg.SendEvent env e).2 = 0 ∧
    writesOf (NostrPkg.SendEvent env e).2 = [marshalEnvelope e] ∧
    countReads (NostrPkg.SendEvent env e).2 = (if env.writeOk then 1 else 0) ∧
    exceptOkB (NostrPkg.SendEvent env e).1 = (env.writeOk && env.readOk) := by
  obtain ⟨d, w, r⟩ := env
  cases d <;> cases w <;> cases r <;>
    simp [NostrLib.SendEvent, NostrPkg.SendEvent, countDials, writesOf, countReads, exceptOkB]

/-! ## Claim C5: key decoding in the signing stage -/

/-- C5 counterexample: the private-key hex string `"ab"` is valid hex
of the wrong byte length (1 byte instead of 32), yet `SignAndSendEvent`
does not fail with a key-decode error: `hex.DecodeString` succeeds and
`btcec.PrivKeyFromBytes` performs no length validation, so the stage
proceeds to signing. -/
theorem wrongLenKey_no_keyDecode :
    hexDecodeString wrongLenKeyHex = .ok [171] ∧
    isKeyDecodeErrB (NostrLib.SignAndSendEvent envAll idVector wrongLenKeyHex relayUrl).1
      = false := by
  refine ⟨rfl, ?_⟩
  unfold NostrLib.SignAndSendEvent
  rw [show hexDecodeString wrongLenKeyHex = Except.ok [171] from rfl]
  split
  · next e heq => exact nomatch heq
  · next sig heq =>
    cases Except.ok.inj heq
    split
    · rfl
    · rfl

/-- C5 (amended): for every private-key hex string that is malformed as
hex (an invalid digit or an odd length), the `part_001` signing stage
fails with a key-decode error, no signature is produced, no network
action is attempted, and the failure is confined to returning that
error; a valid-hex key of the wrong byte length is not rejected (see
the counterexample). -/
theorem malformed_key_keyDecode (env : NetEnv) (e : NostrEvent) (privKeyHex url : String)
    (h : exceptOkB (hexDecodeString privKeyHex) = false) :
    ∃ m, NostrLib.SignAndSendEvent env e privKeyHex url = (.error (.keyDecode m), []) := by
  unfold NostrLib.SignAndSendEvent
  cases hd : hexDecodeString privKeyHex with
  | error msg => exact ⟨"failed to decode private key: " ++ msg, rfl⟩
  | ok bytes =>
    rw [hd] at h
    exact absurd h (by simp [exceptOkB])

/-- Witness for C5 (amended) at the malformed key `"zz"`. -/
theorem malformed_key_keyDecode_witness :
    exceptOkB (hexDecodeString badKeyHex) = false ∧
    ∃ m, NostrLib.SignAndSendEvent envAll idVector badKeyHex relayUrl =
      (.error (.keyDecode m), []) :=
  ⟨by decide, malformed_key_keyDecode envAll idVector badKeyHex relayUrl (by decide)⟩

/-! ## Claim C10: rejection of malformed event ids by the signer -/

/-- C10: for every input string that is not the valid hex encoding of a
32-byte value — invalid hex, odd length, or a hex string of any other
byte length — `SignEventSchnorr` returns an error and never a
signature: the hex decode rejects malformed input and the Schnorr
primitive rejects messages that are not exactly 32 bytes. Consequently
a signature is returned only when the input decodes to 32 bytes the
primitive accepts. (The embedding is total, so no panic is possible.) -/
theorem signEventSchnorr_rejects_bad_id (id : String) (key : Nat)
    (h : hexLenOf id ≠ some 32) :
    ∃ e, SignEventSchnorr id key = .error e := by
  unfold SignEventSchnorr
  cases hd : hexDecodeString id with
  | error msg => exact ⟨"failed to decode event ID: " ++ msg, rfl⟩
  | ok bytes =>
    have hb : bytes.length ≠ 32 := by
      intro hc
      exact h (by simp [hexLenOf, hd, hc])
    have hs : schnorrSign key bytes = .error "wrong size for message hash" := by
      unfold schnorrSign
      rw [if_pos hb]
    refine ⟨"failed to sign event with Schnorr: " ++ "wrong size for message hash", ?_⟩
    show (match schnorrSign key bytes with
          | Except.error e => Except.error ("failed to sign event with Schnorr: " ++ e)
          | Except.ok sig => Except.ok (hexEncodeToString sig)) = _
    rw [hs]

/-- Witness for C10 at the 2-byte hex string `"abcd"`. -/
theorem signEventSchnorr_rejects_bad_id_witness :
    hexLenOf shortIdHex ≠ some 32 ∧ ∃ e, SignEventSchnorr shortIdHex 1 = .error e :=
  ⟨by decide, signEventSchnorr_rejects_bad_id shortIdHex 1 (by decide)⟩

/-! ## Claim C2: the identifier deriver -/

set_option maxRecDepth 8000 in
/-- C2: `ComputeEventID` is exactly the lowercase hexadecimal encoding
(64 characters over 0-9a-f) of the SHA-256 digest of the UTF-8 bytes of
its input, a pure total function with no error conditions (it is a
plain Lean function); its output matches the published SHA-256
reference digests of `"abc"` and of the empty string; and every Record
the `part_002` handler constructs carries as its id this function
applied to the Record's canonical serialization. -/
theorem computeEventID_spec :
    (∀ s : String, ComputeEventID s = hexEncodeToString (sha256 (utf8Bytes s)) ∧
      (ComputeEventID s).length = 64 ∧ isLowerHexStr (ComputeEventID s) = true) ∧
    ComputeEventID shaVecAbc = shaVecAbcDigest ∧
    ComputeEventID emptyInput = shaVecEmptyDigest ∧
    (∀ (authorID botUserID msgChannelID channelID content pubkey privKeyHex : String)
       (now : Int) (env : NetEnv),
      optionAllB
        (fun r => r.ID == ComputeEventID (SerializeEventForID (baseEvent pubkey now content)))
        (Main2.messageCreateHandler authorID botUserID msgChannelID channelID content pubkey
          privKeyHex now env).record = true) := by
  refine ⟨?_, by decide, by decide, ?_⟩
  · intro s
    refine ⟨rfl, ?_, hexEncode_lower _⟩
    unfold ComputeEventID
    rw [hexEncode_length, sha256_length]
  · intro authorID botUserID msgChannelID channelID content pubkey privKeyHex now env
    unfold Main2.messageCreateHandler
    cases hb : (authorID == botUserID) with
    | true => simp [hb, optionAllB]
    | false =>
      cases hc : (msgChannelID == channelID) with
      | false => simp [hb, hc, optionAllB]
      | true =>
        simp only [hb, hc, Bool.false_eq_true, if_false, if_true]
        split <;> simp [optionAllB, baseEvent]

/-! ## Claim C3: shape of the Schnorr signer's output -/

/-- C3: whenever `SignEventSchnorr` returns a signature, that signature
is 128 lowercase hexadecimal characters and is exactly the hex encoding
of the BIP-340 Schnorr signature (not an ECDSA signature) computed over
precisely the 32 raw bytes the Record's id decodes to. -/
theorem signEventSchnorr_shape (id : String) (key : Nat) : sigShapeB id key = true := by
  unfold sigShapeB
  cases hs : SignEventSchnorr id key with
  | error e => rfl
  | ok s =>
    unfold SignEventSchnorr at hs
    split at hs
    · exact nomatch hs
    · next b heqb =>
      split at hs
      · exact nomatch hs
      · next sb heq2 =>
        obtain ⟨hb32, hsb64⟩ := schnorrSign_ok_shape key b sb heq2
        cases hs
        simp [heqb, heq2, hexEncode_length, hexEncode_lower, hb32, hsb64]

/-! ## Claim C1: the canonical serialization -/

set_option maxRecDepth 8000 in
/-- C1 counterexample: a Record whose content contains an ampersand.
Go's `json.Marshal` HTML-escapes it to a backslash-u0026 sequence, so
the canonical serialization used as hash input differs from the
minified JSON rendering of the 6-element array. -/
theorem serializeEventForID_not_minified :
    SerializeEventForID ampVector ≠ specMinifiedJson ampVector := by decide

set_option maxRecDepth 8000 in
/-- C1 (amended): for every Record whose string fields contain none of
the characters the Go encoder additionally escapes (`&`, `<`, `>`,
U+2028, U+2029), the canonical serialization equals the minified JSON
rendering of the 6-element array `[0, authorKey, createdAt, kind, tags,
content]` in that fixed order with no extra whitespace; in general the
hash input is that rendering with those five characters escaped as
lowercase u-sequences. In particular, the spec's end-to-end vector
(authorKey `"ab"*32`, createdAt 1700000000, kind 1, empty tags, content
`"hi"`) serializes to exactly the required byte string. -/
theorem serializeEventForID_minified (e : NostrEvent) (h : goodEventChars e = true) :
    SerializeEventForID e = specMinifiedJson e ∧
    SerializeEventForID testVector = testVectorOutput := by
  constructor
  · simp only [goodEventChars, Bool.and_eq_true] at h
    obtain ⟨⟨hp, hc⟩, ht⟩ := h
    have ht' : ∀ t ∈ e.Tags, ∀ s ∈ t, plainStr s = true := by
      simp only [List.all_eq_true] at ht
      intro t htm s hsm
      have := ht t htm
      simp only [List.all_eq_true] at this
      exact this s hsm
    unfold SerializeEventForID specMinifiedJson jsonArray6
    rw [encString_plain _ hp, encString_plain _ hc, encTags_plain _ ht']
  · decide

set_option maxRecDepth 8000 in
/-- Witness for C1 (amended) at the spec's end-to-end vector. -/
theorem serializeEventForID_minified_witness :
    goodEventChars testVector = true ∧
    SerializeEventForID testVector = specMinifiedJson testVector :=
  ⟨by decide, (serializeEventForID_minified testVector (by decide)).1⟩

/-! ## Claim C4: agreement of the serializer variants -/

set_option maxRecDepth 8000 in
/-- C4 counterexample: at the spec's own test vector the prototype
serializer of `src/main.go` (object form plus escape mangling) does not
produce the canonical array serialization, and on a content containing
`&` the `part_001` variant (post-hoc backslash-u0026 replacement)
differs from the plain `part_002`/`nostr.go` variant. -/
theorem serializer_variants_not_identical :
    Main0.SerializeEvent testVectorFlat ≠ SerializeEventForID testVector ∧
    NostrLib.SerializeEventForID ampVector ≠ SerializeEventForID ampVector := by
  exact ⟨by decide, by decide⟩

set_option maxRecDepth 8000 in
/-- C4 (amended): the two `SerializeEventForID` variants (`part_001`
with the backslash-u0026 replacement, and the plain `part_002`/
`nostr.go` one) produce byte-identical output on every Record whose
plain serialization contains no backslash-u0026 sequence — in
particular whenever no string field contains `&` or that literal
sequence; they differ on contents containing `&`, and the prototype
`SerializeEvent` of `src/main.go` produces a different, non-canonical
encoding (see the counterexample). -/
theorem serializeForID_variants_agree (e : NostrEvent)
    (h : hasSubL ampEscape.data (SerializeEventForID e).data = false) :
    NostrLib.SerializeEventForID e = SerializeEventForID e ∧
    Main0.SerializeEvent testVectorFlat ≠ SerializeEventForID testVector := by
  refine ⟨?_, by decide⟩
  unfold NostrLib.SerializeEventForID
  exact replaceAllStr_id _ _ _ h

set_option maxRecDepth 8000 in
/-- Witness for C4 (amended) at the spec's end-to-end vector. -/
theorem serializeForID_variants_agree_witness :
    hasSubL ampEscape.data (SerializeEventForID testVector).data = false ∧
    NostrLib.SerializeEventForID testVector = SerializeEventForID testVector :=
  ⟨by decide, (serializeForID_variants_agree testVector (by decide)).1⟩

end NdmBridge

